import Mathlib

/-!
Shallow embedding of the operation-ingestion engine of
`core/crates/sync/src/ingest.rs` and of the peer-metadata codec of
`core/src/p2p/peer_metadata.rs`, together with theorems settling the
specification claims about them.

Conventions:
* `uhlc::NTP64` timestamps (`u64`) are modelled as `Nat`; the database stores
  them in an `i64` column (`op.timestamp.0 as i64`), which we model by the
  explicit reinterpretation `toI64`.
* `Uuid` values are modelled as `Nat` (only equality is ever used).
* `serde_json::to_vec` serialisations of record ids are modelled by the ids
  themselves (the encoding is deterministic and injective, and only equality
  of the encodings is ever used).
* Rust `HashMap`s and the domain tables are modelled as association lists with
  replace-on-insert semantics (`alInsert` / `alGet`).
-/

namespace Spacedrive

/-! ## Machine-integer reinterpretation -/

/-- Reduction of a natural number to its `u64` value (`as_u64`). -/
def asU64 (t : Nat) : Nat := t % 2 ^ 64

/-- Reinterpretation of a `u64` value as an `i64`, as performed by
`op.timestamp.as_u64() as i64` and by storing `op.timestamp.0 as i64` in the
`timestamp` column of the audit-log tables. -/
def toI64 (t : Nat) : Int :=
  if asU64 t < 2 ^ 63 then (asU64 t : Int) else (asU64 t : Int) - 2 ^ 64

/-! ## Association lists (model of `HashMap` and of the domain tables) -/

/-- Lookup in an association list (model of `HashMap::get`). -/
def alGet {α β : Type} [DecidableEq α] : List (α × β) → α → Option β
  | [], _ => none
  | (k', v') :: rest, k => if k' = k then some v' else alGet rest k

/-- Insert-or-replace in an association list (model of `HashMap::insert`). -/
def alInsert {α β : Type} [DecidableEq α] : List (α × β) → α → β → List (α × β)
  | [], k, v => [(k, v)]
  | (k', v') :: rest, k, v =>
    if k' = k then (k, v) :: rest else (k', v') :: alInsert rest k v

/-! ## CRDT operations (`sd_sync`)

The `sd_sync` crate is not under `src/`; the operation shapes below are
modelled from the spec (section 3, "Operation"): a shared change carries
`(model, record_id, kind, data)`, a relation change carries
`(relation_name, item_id, group_id, kind, data)`.  In the source `kind()` is
derived from the `data` variant; we carry it as a field. -/

/-- Modelled from the spec: `sd_sync::SharedOperation`, a change targeting a
single domain record. -/
structure SharedOperation where
  model : String
  record_id : String
  kind : String
  data : String
deriving DecidableEq, Repr

/-- Modelled from the spec: `sd_sync::RelationOperation`, a change targeting an
edge between two records. -/
structure RelationOperation where
  relation : String
  relation_item : String
  relation_group : String
  kind : String
  data : String
deriving DecidableEq, Repr

/-- Modelled from the spec: `sd_sync::CRDTOperationType`, the tagged payload of
an operation. -/
inductive CRDTOperationType where
  | shared (s : SharedOperation)
  | relation (r : RelationOperation)
deriving DecidableEq, Repr

/-- Modelled from the spec: `sd_sync::CRDTOperation`.  `inst` is the source's
`instance` field (the origin replica id); `timestamp` is the `NTP64` value. -/
structure CRDTOperation where
  inst : Nat
  timestamp : Nat
  id : Nat
  typ : CRDTOperationType
deriving DecidableEq, Repr

/-! ## Audit-log rows (`shared_operation` / `relation_operation` tables)

The `timestamp` column is an `i64` holding `op.timestamp.0 as i64`; we keep
the unsigned value in the row and apply `toI64` wherever the source compares
or returns the column, which denotes the same stored value. -/

/-- Row of the `shared_operation` table, per `shared_op_db`. -/
structure SharedOpRow where
  id : Nat
  timestamp : Nat
  inst : Nat
  kind : String
  data : String
  model : String
  record_id : String
deriving DecidableEq, Repr

/-- Row of the `relation_operation` table, per `relation_op_db`. -/
structure RelationOpRow where
  id : Nat
  timestamp : Nat
  inst : Nat
  kind : String
  data : String
  relation : String
  item_id : String
  group_id : String
deriving DecidableEq, Repr

/-- Modelled from the spec: the domain tables the applier projects onto —
`records` maps `(model, record_id)` to its current data, `relations` maps
`(relation_name, item_id, group_id)` to its current data. -/
structure Domain where
  records : List ((String × String) × String)
  relations : List ((String × String × String) × String)
deriving DecidableEq, Repr

/-- The durable store: the two audit-log tables plus the domain tables. -/
structure DbState where
  sharedOps : List SharedOpRow
  relationOps : List RelationOpRow
  domain : Domain
deriving DecidableEq, Repr

/-! ## `ModelSyncData` (`sd_prisma::prisma_sync`) -/

/-- Modelled from the spec: the set of model names the applier recognizes
(the per-payload-kind handlers of `ModelSyncData`); any other model name is an
unrecognized payload variant. -/
def recognizedModels : List String := ["object", "tag", "location", "file_path"]

/-- Modelled from the spec: the set of relation names the applier recognizes. -/
def recognizedRelations : List String := ["tag_on_object"]

/-- Modelled from the spec: `ModelSyncData`, the decoded per-model form of a
payload, ready to be projected onto the domain store. -/
structure ModelSyncData where
  typ : CRDTOperationType
deriving DecidableEq, Repr

/-- Modelled from the spec: `ModelSyncData::from_op` decodes a payload into its
per-model handler, returning `none` for a payload variant the applier does not
recognize. -/
def ModelSyncData.from_op (t : CRDTOperationType) : Option ModelSyncData :=
  match t with
  | .shared s => if recognizedModels.contains s.model then some ⟨t⟩ else none
  | .relation r => if recognizedRelations.contains r.relation then some ⟨t⟩ else none

/-- Modelled from the spec: `ModelSyncData::exec` projects the operation onto
the domain store — a delete-kind change removes the identified record or
relation, any other kind upserts its data. -/
def ModelSyncData.exec (m : ModelSyncData) (db : DbState) : DbState :=
  match m.typ with
  | .shared s =>
    let recs :=
      if s.kind = "delete" then
        db.domain.records.filter (fun p => decide (p.1 ≠ (s.model, s.record_id)))
      else
        alInsert db.domain.records (s.model, s.record_id) s.data
    { db with domain := { db.domain with records := recs } }
  | .relation r =>
    let rels :=
      if r.kind = "delete" then
        db.domain.relations.filter
          (fun p => decide (p.1 ≠ (r.relation, r.relation_item, r.relation_group)))
      else
        alInsert db.domain.relations
          (r.relation, r.relation_item, r.relation_group) r.data
    { db with domain := { db.domain with relations := rels } }

/-- Convenience read-back of a domain record's data. -/
def DbState.getRecord (db : DbState) (model record_id : String) : Option String :=
  alGet db.domain.records (model, record_id)

/-! ## Audit-log writes (`write_crdt_op_to_db`) -/

/-- `shared_op_db`: builds the `shared_operation::Create` row for an
operation. -/
def shared_op_db (op : CRDTOperation) (shared_op : SharedOperation) : SharedOpRow :=
  { id := op.id
    timestamp := op.timestamp
    inst := op.inst
    kind := shared_op.kind
    data := shared_op.data
    model := shared_op.model
    record_id := shared_op.record_id }

/-- `relation_op_db`: builds the `relation_operation::Create` row for an
operation. -/
def relation_op_db (op : CRDTOperation) (relation_op : RelationOperation) : RelationOpRow :=
  { id := op.id
    timestamp := op.timestamp
    inst := op.inst
    kind := relation_op.kind
    data := relation_op.data
    relation := relation_op.relation
    item_id := relation_op.relation_item
    group_id := relation_op.relation_group }

/-- `write_crdt_op_to_db`: appends the operation to the audit-log table
matching its payload variant. -/
def write_crdt_op_to_db (op : CRDTOperation) (db : DbState) : DbState :=
  match op.typ with
  | .shared shared_op =>
    { db with sharedOps := db.sharedOps ++ [shared_op_db op shared_op] }
  | .relation relation_op =>
    { db with relationOps := db.relationOps ++ [relation_op_db op relation_op] }

/-! ## Conflict resolution (`Actor::compare_message`) -/

/-- Maximum of a list of integers, `none` on the empty list.  `find_first`
with a descending order on the `timestamp` column returns the row with the
greatest stored timestamp among the matches; we model the timestamp of that
row as the maximum of the matching timestamps. -/
def maxInt? : List Int → Option Int
  | [] => none
  | x :: xs =>
    match maxInt? xs with
    | none => some x
    | some m => some (max x m)

/-- `Actor::compare_message`: queries the audit log for the most recent
competing operation with stored (`i64`) timestamp `>=` the incoming one and
reports the operation old (stale) when that timestamp differs from the
incoming operation's own stored timestamp. -/
def compare_message (db : DbState) (op : CRDTOperation) : Bool :=
  let old_timestamp : Option Int :=
    match op.typ with
    | .shared shared_op =>
      maxInt? ((db.sharedOps.filter (fun r =>
        decide (toI64 op.timestamp ≤ toI64 r.timestamp) &&
        ((r.model == shared_op.model) &&
         (r.record_id == shared_op.record_id) &&
         (r.kind == shared_op.kind)))).map (fun r => toI64 r.timestamp))
    | .relation relation_op =>
      maxInt? ((db.relationOps.filter (fun r =>
        decide (toI64 op.timestamp ≤ toI64 r.timestamp) &&
        ((r.relation == relation_op.relation) &&
         (r.item_id == relation_op.relation_item) &&
         (r.kind == relation_op.kind)))).map (fun r => toI64 r.timestamp))
  (old_timestamp.map (fun old => old != toI64 op.timestamp)).getD false

/-! ## The ingestion actor (`Actor`)

`receive_crdt_operation` and `apply_op` await fallible durable-store calls.
We make the transient-failure points explicit parameters: `queryFails` is a
store error of the staleness query inside `compare_message` (whose result the
source unwraps), `projFails` an error of the domain projection
`ModelSyncData::exec`, `writeFails` an error of the audit-log insert
`write_crdt_op_to_db`.  A result of `none` models a panic of the actor task;
`some` carries the new state together with the requests emitted while
processing. -/

/-- The actor's mutable shared state: the hybrid logical clock, the watermark
table `timestamps : HashMap<Uuid, NTP64>`, and the durable store handle. -/
structure ActorState where
  clock : Nat
  timestamps : List (Nat × Nat)
  db : DbState
deriving DecidableEq, Repr

/-- A batch of operations pushed by the owner (`MessagesEvent`). -/
structure MessagesEvent where
  instance_id : Nat
  messages : List CRDTOperation
  has_more : Bool
deriving DecidableEq, Repr

/-- Requests the actor emits to its owner (`Request`). -/
inductive Request where
  | Messages (timestamps : List (Nat × Nat))
  | Ingested
  | FinishedIngesting
deriving DecidableEq, Repr

/-- Events the actor consumes (`Event`). -/
inductive Event where
  | Notification
  | Messages (e : MessagesEvent)
deriving DecidableEq, Repr

/-- `Actor::apply_op`: decode the payload (`ModelSyncData::from_op(..).unwrap()`
— `none` here models the panic on an unrecognized variant), project it onto
the domain store, append it to the audit log, and emit `Request::Ingested` on
success.  The result carries the store after whatever effects happened, the
flag whether `Ingested` was emitted, and whether the call returned `Ok`. -/
def apply_op (projFails writeFails : Bool) (db : DbState) (op : CRDTOperation) :
    Option (DbState × Bool × Bool) :=
  match ModelSyncData.from_op op.typ with
  | none => none
  | some m =>
    if projFails then some (db, false, false)
    else
      let db1 := m.exec db
      if writeFails then some (db1, false, false)
      else some (write_crdt_op_to_db op db1, true, true)

/-- `Actor::receive_crdt_operation`: merge the clock (`uhlc`'s
`update_with_timestamp`, modelled from the spec as keeping the local clock at
least the observed timestamp), read-or-insert the origin's watermark entry,
bump it to the operation's timestamp if larger, check staleness, apply if not
stale (discarding the `Result`), and write the final watermark back.  A
failing staleness query is unwrapped by the source, hence `none` (panic). -/
def receive_crdt_operation (queryFails projFails writeFails : Bool)
    (st : ActorState) (op : CRDTOperation) : Option (ActorState × List Request) :=
  let clock := max st.clock (asU64 op.timestamp)
  let tsMap1 :=
    match alGet st.timestamps op.inst with
    | none => alInsert st.timestamps op.inst op.timestamp
    | some _ => st.timestamps
  let timestamp0 := (alGet tsMap1 op.inst).getD op.timestamp
  let timestamp := if timestamp0 < op.timestamp then op.timestamp else timestamp0
  if queryFails then none
  else
    let is_old := compare_message st.db op
    let step : Option (DbState × List Request) :=
      if is_old then some (st.db, [])
      else
        match apply_op projFails writeFails st.db op with
        | none => none
        | some (db', ingested, _ok) =>
          some (db', if ingested then [Request.Ingested] else [])
    match step with
    | none => none
    | some (db', reqs) =>
      some ({ clock := clock, timestamps := alInsert tsMap1 op.inst timestamp,
              db := db' }, reqs)

/-- The `for op in event.messages` loop of the `Ingesting` arm of
`Actor::tick`: operations are processed strictly in list order, each awaited
to completion before the next; requests are emitted in order.  The store is
taken as healthy here (all failure flags `false`); `none` still models the
panic on an unrecognized payload variant. -/
def processBatch (st : ActorState) : List CRDTOperation → Option (ActorState × List Request)
  | [] => some (st, [])
  | op :: ops =>
    match receive_crdt_operation false false false st op with
    | none => none
    | some (st1, reqs1) =>
      match processBatch st1 ops with
      | none => none
      | some (st2, reqs2) => some (st2, reqs1 ++ reqs2)

/-- The actor's state enum (`State`). -/
inductive State where
  | WaitingForNotification
  | RetrievingMessages
  | Ingesting (e : MessagesEvent)
deriving DecidableEq, Repr

/-- Outcome of one `Actor::tick`: `exited` models `tick` returning `None`
(the event source closed during a `wait!`), `panicked` models a panic while
ingesting, `next` carries the successor state, the requests emitted during the
tick, and the actor's shared state afterwards. -/
inductive TickResult where
  | exited
  | panicked
  | next (s : State) (reqs : List Request) (a : ActorState)
deriving DecidableEq, Repr

/-- `Actor::tick`.  The `wait!` macro (`crate::wait`, not under `src/`) is
modelled from the spec: it suspends until the awaited event arrives, so `ev`
stands for the next matching event, `none` meaning the event source closed
(the sole exit condition).  `RetrievingMessages` first sends
`Request::Messages` with the watermark-table snapshot, then waits for the
batch; `Ingesting` drains the batch and either loops to fetch the next page or
signals `FinishedIngesting` and returns to idle. -/
def tick (s : State) (a : ActorState) (ev : Option Event) : TickResult :=
  match s with
  | .WaitingForNotification =>
    match ev with
    | some .Notification => .next .RetrievingMessages [] a
    | _ => .exited
  | .RetrievingMessages =>
    match ev with
    | some (.Messages e) => .next (.Ingesting e) [Request.Messages a.timestamps] a
    | _ => .exited
  | .Ingesting e =>
    match processBatch a e.messages with
    | none => .panicked
    | some (a', reqs) =>
      match e.has_more with
      | true => .next .RetrievingMessages reqs a'
      | false => .next .WaitingForNotification (reqs ++ [Request.FinishedIngesting]) a'

/-! ## Peer metadata (`core/src/p2p/peer_metadata.rs`) -/

/-- `OperatingSystem`: the operating system a remote peer reports. -/
inductive OperatingSystem where
  | Windows
  | Linux
  | MacOS
  | Ios
  | Android
  | Other (s : String)
deriving DecidableEq, Repr

/-- `PeerMetadata`: name, optional operating system, optional version. -/
structure PeerMetadata where
  name : String
  operating_system : Option OperatingSystem
  version : Option String
deriving DecidableEq, Repr

/-- `ToString for OperatingSystem`.  The `Other` arm advances the character
iterator once and keeps the rest (`chars.next(); chars.as_str()`), i.e. it
drops the first character. -/
def OperatingSystem.toString : OperatingSystem → String
  | .Windows => "Windows"
  | .Linux => "Linux"
  | .MacOS => "MacOS"
  | .Ios => "IOS"
  | .Android => "Android"
  | .Other s => ⟨s.data.drop 1⟩

/-- `FromStr for OperatingSystem`: dispatch on the first character of the
string (`chars.next()`); every arm returns `Ok`, the catch-all (no first
character, or any other first character) yielding `Other` of the whole
input. -/
def OperatingSystem.from_str (s : String) : Except Unit OperatingSystem :=
  match s.data with
  | 'W' :: _ => .ok .Windows
  | 'L' :: _ => .ok .Linux
  | 'M' :: _ => .ok .MacOS
  | 'I' :: _ => .ok .Ios
  | 'A' :: _ => .ok .Android
  | _ => .ok (.Other s)

/-- `Metadata::to_hashmap for PeerMetadata`: always store `name`, store `os`
and `version` only when present. -/
def PeerMetadata.to_hashmap (pm : PeerMetadata) : List (String × String) :=
  let map := alInsert [] "name" pm.name
  let map :=
    match pm.operating_system with
    | some os => alInsert map "os" os.toString
    | none => map
  match pm.version with
  | some version => alInsert map "version" version
  | none => map

/-- `Metadata::from_hashmap for PeerMetadata`: `name` is required, `os` is
parsed when present (a parse failure would surface as an error — the parser
never fails), `version` is passed through. -/
def PeerMetadata.from_hashmap (data : List (String × String)) :
    Except String PeerMetadata :=
  match alGet data "name" with
  | none =>
    .error "DNS record for field name missing. Unable to decode PeerMetadata!"
  | some name =>
    match alGet data "os" with
    | some os =>
      match OperatingSystem.from_str os with
      | .error _ => .error "Unable to parse OperationSystem!"
      | .ok o =>
        .ok { name := name, operating_system := some o,
              version := alGet data "version" }
    | none =>
      .ok { name := name, operating_system := none,
            version := alGet data "version" }

/-! ## Spec-side staleness predicates (for claim C1)

Two formalisations of the spec sentence "the durable audit log contains a
competing operation on op's logical target whose timestamp is `>=`
op.timestamp and differs from op.timestamp": `staleSpecUnsigned` compares the
64-bit timestamps in their unsigned (`u64` / `NTP64`) order, which is how the
spec's data model presents timestamps; `staleSpecSigned` compares them after
the `i64` reinterpretation that the store's `timestamp` column imposes. -/

/-- Claim-side predicate, unsigned timestamp order: a competing operation on
the same logical target exists whose `u64` timestamp is `>=` the incoming
one's and differs from it. -/
def staleSpecUnsigned (db : DbState) (op : CRDTOperation) : Bool :=
  match op.typ with
  | .shared shared_op =>
    db.sharedOps.any (fun r =>
      (r.model == shared_op.model) &&
      (r.record_id == shared_op.record_id) &&
      (r.kind == shared_op.kind) &&
      decide (asU64 op.timestamp ≤ asU64 r.timestamp) &&
      (asU64 r.timestamp != asU64 op.timestamp))
  | .relation relation_op =>
    db.relationOps.any (fun r =>
      (r.relation == relation_op.relation) &&
      (r.item_id == relation_op.relation_item) &&
      (r.kind == relation_op.kind) &&
      decide (asU64 op.timestamp ≤ asU64 r.timestamp) &&
      (asU64 r.timestamp != asU64 op.timestamp))

/-- Claim-side predicate, signed (`i64`) timestamp order, i.e. the order the
store's `timestamp` column actually uses: a competing operation on the same
logical target exists whose stored timestamp is `>=` the incoming one's and
differs from it. -/
def staleSpecSigned (db : DbState) (op : CRDTOperation) : Bool :=
  match op.typ with
  | .shared shared_op =>
    db.sharedOps.any (fun r =>
      ((r.model == shared_op.model) &&
       (r.record_id == shared_op.record_id) &&
       (r.kind == shared_op.kind)) &&
      (decide (toI64 op.timestamp ≤ toI64 r.timestamp) &&
       (toI64 r.timestamp != toI64 op.timestamp)))
  | .relation relation_op =>
    db.relationOps.any (fun r =>
      ((r.relation == relation_op.relation) &&
       (r.item_id == relation_op.relation_item) &&
       (r.kind == relation_op.kind)) &&
      (decide (toI64 op.timestamp ≤ toI64 r.timestamp) &&
       (toI64 r.timestamp != toI64 op.timestamp)))

/-! ## Concrete fixtures used by the scenario claims -/

/-- The empty initial actor state: fresh clock, empty watermark table, empty
store. -/
def init0 : ActorState :=
  { clock := 0, timestamps := [],
    db := { sharedOps := [], relationOps := [], domain := { records := [], relations := [] } } }

/-- A shared update on the logical target `(object, r1, update)` with the
given timestamp, origin, id and data. -/
def opT (ts inst id : Nat) (d : String) : CRDTOperation :=
  { inst := inst, timestamp := ts, id := id,
    typ := .shared { model := "object", record_id := "r1", kind := "update", data := d } }

/-- Result of ingesting `opT 5 1 1 "a"` into the empty state (used by witness
theorems). -/
def recvRes0 : ActorState × List Request :=
  (receive_crdt_operation false false false init0 (opT 5 1 1 "a")).getD (init0, [])

/-- Final actor state of the batch `[opT 5 1 1 "a", opT 3 1 2 "b"]` (claim C3's
scenario). -/
def stBatch53 : ActorState :=
  ((processBatch init0 [opT 5 1 1 "a", opT 3 1 2 "b"]).getD (init0, [])).1

/-- Equal-timestamp operation from origin 1 (claim C5's scenario). -/
def opX15 : CRDTOperation :=
  { inst := 1, timestamp := 15, id := 21,
    typ := .shared { model := "object", record_id := "r1", kind := "update", data := "x" } }

/-- Equal-timestamp operation from origin 2, same logical target (claim C5). -/
def opY15 : CRDTOperation :=
  { inst := 2, timestamp := 15, id := 22,
    typ := .shared { model := "object", record_id := "r1", kind := "update", data := "y" } }

/-- Actor state after ingesting `opX15` alone. -/
def stAfterX : ActorState :=
  ((receive_crdt_operation false false false init0 opX15).getD (init0, [])).1

/-- Actor state after ingesting `opY15` alone. -/
def stAfterY : ActorState :=
  ((receive_crdt_operation false false false init0 opY15).getD (init0, [])).1

/-- Final actor state of the batch `[opX15, opY15]`. -/
def stXY : ActorState :=
  ((processBatch init0 [opX15, opY15]).getD (init0, [])).1

/-- Final actor state of the batch `[opY15, opX15]`. -/
def stYX : ActorState :=
  ((processBatch init0 [opY15, opX15]).getD (init0, [])).1

/-- Operation A of claim C6: timestamp 100, applied first. -/
def opA100 : CRDTOperation := opT 100 1 31 "a"

/-- Operation B of claim C6: timestamp 90, same target, delivered after A. -/
def opB90 : CRDTOperation := opT 90 2 32 "b"

/-- Actor state after ingesting `opA100` into the empty state. -/
def stA : ActorState :=
  ((receive_crdt_operation false false false init0 opA100).getD (init0, [])).1

/-- Actor state after then delivering `opB90` to `stA`. -/
def stAB : ActorState :=
  ((receive_crdt_operation false false false stA opB90).getD (init0, [])).1

/-- An operation whose payload variant the applier does not recognize
(`ModelSyncData::from_op` yields `none` for it) — claim C8's failing input. -/
def opBad : CRDTOperation :=
  { inst := 1, timestamp := 7, id := 41,
    typ := .shared { model := "unknown_model", record_id := "r9", kind := "update", data := "z" } }

/-- Audit-log row for claim C1's counterexample: stored timestamp `0`
(`i64` value `0`). -/
def exRow : SharedOpRow :=
  { id := 51, timestamp := 0, inst := 1, kind := "update", data := "d",
    model := "object", record_id := "r1" }

/-- Store holding only `exRow` (claim C1's counterexample). -/
def exDb : DbState :=
  { sharedOps := [exRow], relationOps := [],
    domain := { records := [], relations := [] } }

/-- Incoming operation with timestamp `2 ^ 63` (stored `i64` value `-2 ^ 63`)
on `exRow`'s logical target (claim C1's counterexample). -/
def exOp : CRDTOperation :=
  { inst := 2, timestamp := 2 ^ 63, id := 52,
    typ := .shared { model := "object", record_id := "r1", kind := "update", data := "x" } }

/-- An empty batch with `has_more = true` (claim C4's witness input). -/
def e0 : MessagesEvent := { instance_id := 1, messages := [], has_more := true }

/-- Is the request a fetch-request (`Request::Messages`)? -/
def isFetchRequest : Request → Bool
  | .Messages _ => true
  | _ => false

/-- Is the request the finished signal (`Request::FinishedIngesting`)? -/
def isFinishedRequest : Request → Bool
  | .FinishedIngesting => true
  | _ => false

/-! ## Helper lemmas -/

/-- Two booleans agreeing as propositions are equal. -/
theorem bool_eq_of_iff {a b : Bool} (h : a = true ↔ b = true) : a = b := by
  cases a <;> cases b <;> simp_all

/-- Looking up the key just inserted returns the inserted value. -/
theorem alGet_insert_self {α β : Type} [DecidableEq α] (m : List (α × β)) (k : α) (v : β) :
    alGet (alInsert m k v) k = some v := by
  induction m with
  | nil => simp [alInsert, alGet]
  | cons p rest ih =>
    by_cases hk : p.1 = k
    · simp [alInsert, alGet, hk]
    · rcases p with ⟨k', v'⟩
      simp only at hk
      simp [alInsert, alGet, hk, ih]

/-- Looking up a different key is unaffected by an insert. -/
theorem alGet_insert_ne {α β : Type} [DecidableEq α] (m : List (α × β)) (k k' : α) (v : β)
    (h : k' ≠ k) : alGet (alInsert m k v) k' = alGet m k' := by
  have h' : k ≠ k' := Ne.symm h
  induction m with
  | nil => simp [alInsert, alGet, h']
  | cons p rest ih =>
    rcases p with ⟨k0, v0⟩
    by_cases hk : k0 = k
    · subst hk
      simp [alInsert, alGet, h']
    · simp only [alInsert, hk, if_false, alGet]
      by_cases hk0 : k0 = k'
      · simp [alGet, hk0]
      · simp [alGet, hk0, ih]

/-- `maxInt?` is `none` exactly on the empty list. -/
theorem maxInt?_eq_none {l : List Int} : maxInt? l = none ↔ l = [] := by
  cases l with
  | nil => simp [maxInt?]
  | cons x xs =>
    simp only [maxInt?]
    constructor
    · intro h
      split at h <;> cases h
    · intro h
      cases h

/-- A value returned by `maxInt?` is a member of the list. -/
theorem maxInt?_mem {l : List Int} {m : Int} (h : maxInt? l = some m) : m ∈ l := by
  induction l generalizing m with
  | nil => cases h
  | cons x xs ih =>
    rw [maxInt?] at h
    split at h
    · cases h
      exact List.mem_cons_self _ _
    · rename_i m' hm'
      cases h
      rcases max_choice x m' with hmax | hmax
      · rw [hmax]
        exact List.mem_cons_self _ _
      · rw [hmax]
        exact List.mem_cons_of_mem _ (ih hm')

/-- Every list member is bounded by the value `maxInt?` returns. -/
theorem maxInt?_le {l : List Int} {m : Int} (h : maxInt? l = some m) :
    ∀ x ∈ l, x ≤ m := by
  induction l generalizing m with
  | nil => cases h
  | cons x xs ih =>
    rw [maxInt?] at h
    split at h
    · rename_i hnone
      cases h
      intro y hy
      rcases List.mem_cons.1 hy with rfl | hy'
      · exact le_refl _
      · rw [maxInt?_eq_none.1 hnone] at hy'
        cases hy'
    · rename_i m' hm'
      cases h
      intro y hy
      rcases List.mem_cons.1 hy with rfl | hy'
      · exact le_max_left _ _
      · exact le_trans (ih hm' y hy') (le_max_right _ _)

/-- The staleness test "the greatest matching timestamp at least `T` differs
from `T`" holds exactly when some row matching the target carries a value
strictly above `T`. -/
theorem stale_max_iff {α : Type} (l : List α) (f : α → Int) (p : α → Bool) (T : Int) :
    ((maxInt? ((l.filter (fun r => decide (T ≤ f r) && p r)).map f)).map
        (fun old => old != T)).getD false = true ↔
      ∃ r ∈ l, p r = true ∧ T < f r := by
  rcases hmax : maxInt? ((l.filter (fun r => decide (T ≤ f r) && p r)).map f) with _ | m
  · simp only [Option.map_none', Option.getD_none]
    constructor
    · intro h
      cases h
    · rintro ⟨r, hr, hp, hlt⟩
      exfalso
      have hmem : f r ∈ (l.filter (fun r => decide (T ≤ f r) && p r)).map f := by
        refine List.mem_map_of_mem f (List.mem_filter.2 ⟨hr, ?_⟩)
        simp [hp]
        omega
      rw [maxInt?_eq_none.1 hmax] at hmem
      cases hmem
  · simp only [Option.map_some', Option.getD_some, bne_iff_ne, ne_eq,
      decide_eq_true_eq]
    have hm := maxInt?_mem hmax
    have hle := maxInt?_le hmax
    rcases List.mem_map.1 hm with ⟨r0, hr0f, hfm⟩
    rcases List.mem_filter.1 hr0f with ⟨hr0, hq⟩
    have hq' := hq
    simp only [Bool.and_eq_true, decide_eq_true_eq] at hq'
    obtain ⟨hTle, hp0⟩ := hq'
    constructor
    · intro hne
      refine ⟨r0, hr0, hp0, ?_⟩
      have : f r0 = m := hfm
      omega
    · rintro ⟨r, hr, hp, hlt⟩
      have hmem : f r ∈ (l.filter (fun r => decide (T ≤ f r) && p r)).map f := by
        refine List.mem_map_of_mem f (List.mem_filter.2 ⟨hr, ?_⟩)
        simp [hp]
        omega
      have := hle _ hmem
      omega

/-- Boolean form of `stale_max_iff`, matching the shapes of `compare_message`
and `staleSpecSigned`. -/
theorem stale_eq_any {α : Type} (l : List α) (f : α → Int) (p : α → Bool) (T : Int) :
    ((maxInt? ((l.filter (fun r => decide (T ≤ f r) && p r)).map f)).map
        (fun old => old != T)).getD false =
      l.any (fun r => p r && (decide (T ≤ f r) && (f r != T))) := by
  apply bool_eq_of_iff
  rw [stale_max_iff, List.any_eq_true]
  constructor
  · rintro ⟨r, hr, hp, hlt⟩
    refine ⟨r, hr, ?_⟩
    simp [hp, bne_iff_ne]
    omega
  · rintro ⟨r, hr, h⟩
    simp only [Bool.and_eq_true, decide_eq_true_eq, bne_iff_ne, ne_eq] at h
    exact ⟨r, hr, h.1, by omega⟩

/-- Watermark effect of one successful `receive_crdt_operation`: the incoming
operation's origin is set to the maximum of its previous watermark (defaulting
to the operation's timestamp) and the operation's timestamp; every other
origin's entry is untouched. -/
theorem receive_wm_step {qf pf wf : Bool} {st : ActorState} {op : CRDTOperation}
    {st' : ActorState} {reqs : List Request}
    (h : receive_crdt_operation qf pf wf st op = some (st', reqs)) :
    alGet st'.timestamps op.inst =
      some (max ((alGet st.timestamps op.inst).getD op.timestamp) op.timestamp)
    ∧ ∀ o, o ≠ op.inst → alGet st'.timestamps o = alGet st.timestamps o := by
  unfold receive_crdt_operation at h
  cases qf with
  | true => simp at h
  | false =>
    simp only [Bool.false_eq_true, if_false] at h
    split at h
    · cases h
    · rename_i db' reqs0 hstep
      simp only [Option.some.injEq, Prod.mk.injEq] at h
      obtain ⟨hst, hreq⟩ := h
      subst hst
      rcases hget : alGet st.timestamps op.inst with _ | v
      all_goals simp only [hget, Option.getD_some, Option.getD_none]
      · constructor
        · rw [alGet_insert_self, alGet_insert_self]
          simp
        · intro o ho
          rw [alGet_insert_ne _ _ _ _ ho, alGet_insert_ne _ _ _ _ ho]
      · constructor
        · rw [alGet_insert_self]
          by_cases hvt : v < op.timestamp <;> simp [hvt] <;> omega
        · intro o ho
          rw [alGet_insert_ne _ _ _ _ ho]

/-- Watermark monotonicity of one step: no origin's entry decreases. -/
theorem receive_wm_mono {qf pf wf : Bool} {st : ActorState} {op : CRDTOperation}
    {st' : ActorState} {reqs : List Request}
    (h : receive_crdt_operation qf pf wf st op = some (st', reqs)) :
    ∀ o v, alGet st.timestamps o = some v →
      ∃ v', alGet st'.timestamps o = some v' ∧ v ≤ v' := by
  intro o v hv
  obtain ⟨hself, hother⟩ := receive_wm_step h
  by_cases ho : o = op.inst
  · subst ho
    rw [hv, Option.getD_some] at hself
    exact ⟨max v op.timestamp, hself, le_max_left _ _⟩
  · rw [hother o ho]
    exact ⟨v, hv, le_refl v⟩

/-- Watermark monotonicity across a whole batch. -/
theorem processBatch_wm_mono {st : ActorState} {ops : List CRDTOperation}
    {st' : ActorState} {reqs : List Request}
    (h : processBatch st ops = some (st', reqs)) :
    ∀ o v, alGet st.timestamps o = some v →
      ∃ v', alGet st'.timestamps o = some v' ∧ v ≤ v' := by
  induction ops generalizing st reqs with
  | nil =>
    simp only [processBatch, Option.some.injEq, Prod.mk.injEq] at h
    obtain ⟨hst, -⟩ := h
    subst hst
    intro o v hv
    exact ⟨v, hv, le_refl v⟩
  | cons op ops ih =>
    simp only [processBatch] at h
    split at h
    · cases h
    · rename_i st1 reqs1 h1
      split at h
      · cases h
      · rename_i st2 reqs2 h2
        simp only [Option.some.injEq, Prod.mk.injEq] at h
        obtain ⟨hst, -⟩ := h
        subst hst
        intro o v hv
        obtain ⟨v1, hv1, hle1⟩ := receive_wm_mono h1 o v hv
        obtain ⟨v2, hv2, hle2⟩ := ih h2 o v1 hv1
        exact ⟨v2, hv2, le_trans hle1 hle2⟩

/-- The only requests emitted while receiving one operation are `Ingested`. -/
theorem receive_reqs {qf pf wf : Bool} {st : ActorState} {op : CRDTOperation}
    {st' : ActorState} {reqs : List Request}
    (h : receive_crdt_operation qf pf wf st op = some (st', reqs)) :
    ∀ r ∈ reqs, r = Request.Ingested := by
  unfold receive_crdt_operation at h
  cases qf with
  | true => simp at h
  | false =>
    simp only [Bool.false_eq_true, if_false] at h
    split at h
    · cases h
    · rename_i db' reqs0 hstep
      simp only [Option.some.injEq, Prod.mk.injEq] at h
      obtain ⟨-, hreq⟩ := h
      subst hreq
      split at hstep
      · simp only [Option.some.injEq, Prod.mk.injEq] at hstep
        obtain ⟨-, hr0⟩ := hstep
        subst hr0
        intro r hr
        cases hr
      · split at hstep
        · cases hstep
        · rename_i db2 ingested ok happ
          simp only [Option.some.injEq, Prod.mk.injEq] at hstep
          obtain ⟨-, hr0⟩ := hstep
          subst hr0
          cases ingested with
          | true =>
            intro r hr
            simp only [if_pos rfl] at hr
            rcases List.mem_singleton.1 hr with rfl
            rfl
          | false =>
            intro r hr
            simp at hr

/-- The only requests emitted while draining a batch are `Ingested`. -/
theorem processBatch_reqs {st : ActorState} {ops : List CRDTOperation}
    {st' : ActorState} {reqs : List Request}
    (h : processBatch st ops = some (st', reqs)) :
    ∀ r ∈ reqs, r = Request.Ingested := by
  induction ops generalizing st reqs with
  | nil =>
    simp only [processBatch, Option.some.injEq, Prod.mk.injEq] at h
    obtain ⟨-, hreq⟩ := h
    subst hreq
    intro r hr
    cases hr
  | cons op ops ih =>
    simp only [processBatch] at h
    split at h
    · cases h
    · rename_i st1 reqs1 h1
      split at h
      · cases h
      · rename_i st2 reqs2 h2
        simp only [Option.some.injEq, Prod.mk.injEq] at h
        obtain ⟨hst, hreq⟩ := h
        subst hst
        subst hreq
        intro r hr
        rcases List.mem_append.1 hr with hr' | hr'
        · exact receive_reqs h1 r hr'
        · exact ih h2 r hr'

/-- When the staleness query succeeds and the payload is recognized, receiving
an operation never panics, whatever the projection and audit-write outcomes. -/
theorem receive_no_panic (pf wf : Bool) (st : ActorState) (op : CRDTOperation)
    (h : (ModelSyncData.from_op op.typ).isSome = true) :
    (receive_crdt_operation false pf wf st op).isSome = true := by
  rw [Option.isSome_iff_exists] at h
  obtain ⟨m, hm⟩ := h
  unfold receive_crdt_operation
  simp only [Bool.false_eq_true, if_false]
  by_cases ho : compare_message st.db op = true
  · simp [ho]
  · simp only [ho, if_false]
    unfold apply_op
    rw [hm]
    cases pf <;> cases wf <;> simp

/-! ## Claim theorems -/

/-- Claim C1 (amended): the conflict resolver reports an incoming operation
stale if and only if the durable audit log contains a competing operation on
its logical target whose stored timestamp — the 64-bit value reinterpreted as
a signed `i64`, which is the order the `timestamp` column uses — is `>=` the
operation's stored timestamp and differs from it; an exact-timestamp match
alone does not make the operation stale.  On timestamps lying on the same
side of `2 ^ 63` this coincides with the unsigned order of the claim. -/
theorem C1_compare_message_eq_staleSpecSigned (db : DbState) (op : CRDTOperation) :
    compare_message db op = staleSpecSigned db op := by
  rcases op with ⟨i, ts, id, typ⟩
  cases typ with
  | shared s =>
    have h := stale_eq_any db.sharedOps (fun r => toI64 r.timestamp)
      (fun r => (r.model == s.model) && (r.record_id == s.record_id) &&
        (r.kind == s.kind)) (toI64 ts)
    have h2 := stale_max_iff db.sharedOps (fun r => toI64 r.timestamp)
      (fun r => (r.model == s.model) && (r.record_id == s.record_id) &&
        (r.kind == s.kind)) (toI64 ts)
    apply bool_eq_of_iff
    constructor
    · intro hc
      have hex := h2.1 hc
      rcases hex with ⟨r, hr, hp, hlt⟩
      show staleSpecSigned _ _ = true
      unfold staleSpecSigned
      simp only [List.any_eq_true]
      refine ⟨r, hr, ?_⟩
      simp only [Bool.and_eq_true, decide_eq_true_eq, bne_iff_ne, ne_eq]
      refine ⟨by simpa using hp, by omega, by omega⟩
    · intro hs
      unfold staleSpecSigned at hs
      simp only [List.any_eq_true, Bool.and_eq_true, decide_eq_true_eq,
        bne_iff_ne, ne_eq] at hs
      rcases hs with ⟨r, hr, ⟨hp, hle, hne⟩⟩
      exact h2.2 ⟨r, hr, by simpa using hp, by omega⟩
  | relation rl =>
    have h2 := stale_max_iff db.relationOps (fun r => toI64 r.timestamp)
      (fun r => (r.relation == rl.relation) && (r.item_id == rl.relation_item) &&
        (r.kind == rl.kind)) (toI64 ts)
    apply bool_eq_of_iff
    constructor
    · intro hc
      rcases h2.1 hc with ⟨r, hr, hp, hlt⟩
      show staleSpecSigned _ _ = true
      unfold staleSpecSigned
      simp only [List.any_eq_true]
      refine ⟨r, hr, ?_⟩
      simp only [Bool.and_eq_true, decide_eq_true_eq, bne_iff_ne, ne_eq]
      refine ⟨by simpa using hp, by omega, by omega⟩
    · intro hs
      unfold staleSpecSigned at hs
      simp only [List.any_eq_true, Bool.and_eq_true, decide_eq_true_eq,
        bne_iff_ne, ne_eq] at hs
      rcases hs with ⟨r, hr, ⟨hp, hle, hne⟩⟩
      exact h2.2 ⟨r, hr, by simpa using hp, by omega⟩

/-- Claim C1 counterexample: under the unsigned (`u64` / `NTP64`) timestamp
order the claim asserts, the resolver is wrong across the `2 ^ 63` boundary —
a log holding only a competing row with stored timestamp `0` makes an
incoming operation with timestamp `2 ^ 63` stale (its `i64` image `-2 ^ 63`
is below `0`), although no competing operation with an unsigned timestamp
`>=` `2 ^ 63` exists. -/
theorem C1_counterexample :
    compare_message exDb exOp = true ∧ staleSpecUnsigned exDb exOp = false := by
  constructor <;> decide

/-- Claim C2: on each delivered operation the watermark entry of its origin is
set to the larger of its previous value and the operation timestamp (to the
operation timestamp when no entry exists), no other origin's entry changes,
and hence across any batch the watermark table never decreases — regardless
of staleness or apply failures (any projection/audit-write failure flags). -/
theorem C2_watermark_monotone :
    (∀ (qf pf wf : Bool) (st : ActorState) (op : CRDTOperation)
        (st' : ActorState) (reqs : List Request),
      receive_crdt_operation qf pf wf st op = some (st', reqs) →
      alGet st'.timestamps op.inst =
        some (max ((alGet st.timestamps op.inst).getD op.timestamp) op.timestamp)
      ∧ ∀ o v, alGet st.timestamps o = some v →
          ∃ v', alGet st'.timestamps o = some v' ∧ v ≤ v')
    ∧ (∀ (st : ActorState) (ops : List CRDTOperation)
        (st' : ActorState) (reqs : List Request),
      processBatch st ops = some (st', reqs) →
      ∀ o v, alGet st.timestamps o = some v →
        ∃ v', alGet st'.timestamps o = some v' ∧ v ≤ v') := by
  constructor
  · intro qf pf wf st op st' reqs h
    exact ⟨(receive_wm_step h).1, receive_wm_mono h⟩
  · intro st ops st' reqs h
    exact processBatch_wm_mono h

/-- Claim C2 witness: ingesting `opT 5 1 1 "a"` into the empty state sets
origin 1's watermark to `max (5.getD) 5 = 5`. -/
theorem C2_witness :
    alGet recvRes0.1.timestamps (opT 5 1 1 "a").inst =
      some (max ((alGet init0.timestamps (opT 5 1 1 "a").inst).getD
        (opT 5 1 1 "a").timestamp) (opT 5 1 1 "a").timestamp) :=
  (C2_watermark_monotone.1 false false false init0 (opT 5 1 1 "a")
    recvRes0.1 recvRes0.2 rfl).1

/-- Claim C3: operations of one batch are processed strictly in list order —
draining `op :: ops` first completes `op`'s clock merge, staleness check and
conditional application and only then continues with `ops`, prepending `op`'s
emitted requests; concretely, the batch `[opT 5 1 1 "a", opT 3 1 2 "b"]` on
one logical target applies the timestamp-5 operation and then discards the
timestamp-3 one as stale, leaving the domain at `"a"` and a single audit row
with timestamp 5. -/
theorem C3_batch_in_order :
    (∀ (st : ActorState) (op : CRDTOperation) (ops : List CRDTOperation),
      processBatch st (op :: ops) =
        match receive_crdt_operation false false false st op with
        | none => none
        | some (st1, reqs1) =>
          match processBatch st1 ops with
          | none => none
          | some (st2, reqs2) => some (st2, reqs1 ++ reqs2))
    ∧ processBatch init0 [opT 5 1 1 "a", opT 3 1 2 "b"] =
        some (stBatch53, [Request.Ingested])
    ∧ compare_message recvRes0.1.db (opT 3 1 2 "b") = true
    ∧ stBatch53.db.getRecord "object" "r1" = some "a"
    ∧ stBatch53.db.sharedOps.map SharedOpRow.timestamp = [5] := by
  refine ⟨fun st op ops => rfl, ?_, ?_, ?_, ?_⟩ <;> decide

/-- Claim C4: after draining a batch, `has_more = true` sends the machine back
to the fetching state having emitted no finished signal and no fetch-request
during the batch, and the very next tick issues exactly one fetch-request
(and nothing else); `has_more = false` emits the finished signal, returns to
the idle state, and no fetch-request is issued during that tick. -/
theorem C4_batch_draining (a : ActorState) (e : MessagesEvent)
    (a' : ActorState) (reqs : List Request)
    (h : processBatch a e.messages = some (a', reqs)) :
    (e.has_more = true →
      tick (.Ingesting e) a none = .next .RetrievingMessages reqs a'
      ∧ reqs.countP isFinishedRequest = 0
      ∧ reqs.countP isFetchRequest = 0
      ∧ ∀ e2, tick .RetrievingMessages a' (some (.Messages e2)) =
          .next (.Ingesting e2) [Request.Messages a'.timestamps] a')
    ∧ (e.has_more = false →
      tick (.Ingesting e) a none =
        .next .WaitingForNotification (reqs ++ [Request.FinishedIngesting]) a'
      ∧ (reqs ++ [Request.FinishedIngesting]).countP isFetchRequest = 0) := by
  have hreqs := processBatch_reqs h
  have hfin : reqs.countP isFinishedRequest = 0 := by
    rw [List.countP_eq_zero]
    intro r hr
    rw [hreqs r hr]
    decide
  have hfetch : reqs.countP isFetchRequest = 0 := by
    rw [List.countP_eq_zero]
    intro r hr
    rw [hreqs r hr]
    decide
  constructor
  · intro hm
    refine ⟨?_, hfin, hfetch, fun e2 => rfl⟩
    simp only [tick, h, hm]
  · intro hm
    constructor
    · simp only [tick, h, hm]
    · rw [List.countP_append, hfetch]
      decide

/-- Claim C4 witness: the empty batch with `has_more = true` moves the machine
from `Ingesting` back to `RetrievingMessages` with no requests emitted. -/
theorem C4_witness :
    tick (.Ingesting e0) init0 none = .next .RetrievingMessages [] init0 :=
  ((C4_batch_draining init0 e0 init0 [] rfl).1 rfl).1

/-- Claim C5: two operations with equal timestamps on the same logical target
from different origins, delivered in either order, leave the second one
non-stale (the exact-timestamp match does not differ from its own timestamp),
so it is applied and its data wins — last-applied-wins, no origin tiebreak. -/
theorem C5_equal_timestamps_last_applied_wins :
    compare_message stAfterX.db opY15 = false
    ∧ processBatch init0 [opX15, opY15] =
        some (stXY, [Request.Ingested, Request.Ingested])
    ∧ stXY.db.getRecord "object" "r1" = some "y"
    ∧ compare_message stAfterY.db opX15 = false
    ∧ processBatch init0 [opY15, opX15] =
        some (stYX, [Request.Ingested, Request.Ingested])
    ∧ stYX.db.getRecord "object" "r1" = some "x" := by
  refine ⟨?_, ?_, ?_, ?_, ?_, ?_⟩ <;> decide

/-- Claim C6: with operation A (timestamp 100) applied on a target, a later
delivery of operation B (timestamp 90, same target) is judged stale and
discarded with no side effects — no request is emitted, the store (domain
projection and audit log alike) is unchanged, and the domain still reflects
A's data. -/
theorem C6_stale_discard_frame :
    compare_message stA.db opB90 = true
    ∧ receive_crdt_operation false false false stA opB90 = some (stAB, [])
    ∧ stAB.db = stA.db
    ∧ stAB.db.getRecord "object" "r1" = some "a"
    ∧ stAB.db.sharedOps.map SharedOpRow.timestamp = [100] := by
  refine ⟨?_, ?_, ?_, ?_, ?_⟩ <;> decide

/-- Claim C7 (amended): a transient error of the audit-log staleness query
panics the ingestion actor — the source unwraps the query result — so the
batch (and actor) dies; a transient failure of the projection or of the
audit-log write, by contrast, is absorbed (`apply_op`'s result is discarded)
and processing continues.  The claim's "never panics on store errors" holds
only for the write side. -/
theorem C7_store_error_handling :
    (∀ (pf wf : Bool) (st : ActorState) (op : CRDTOperation),
      receive_crdt_operation true pf wf st op = none)
    ∧ (∀ (pf wf : Bool) (st : ActorState) (op : CRDTOperation),
      (ModelSyncData.from_op op.typ).isSome = true →
      (receive_crdt_operation false pf wf st op).isSome = true) := by
  constructor
  · intro pf wf st op
    rfl
  · intro pf wf st op h
    exact receive_no_panic pf wf st op h

/-- Claim C7 witness: with a failing audit-log write (but healthy query) the
operation `opT 5 1 1 "a"` is still processed without a panic. -/
theorem C7_witness :
    (receive_crdt_operation false false true init0 (opT 5 1 1 "a")).isSome = true :=
  C7_store_error_handling.2 false true init0 (opT 5 1 1 "a") (by decide)

/-- Claim C7 counterexample: a transient store error during the staleness
query makes the ingestion path panic (the query result is unwrapped), against
the claim that store errors are absorbed and the loop proceeds. -/
theorem C7_counterexample :
    receive_crdt_operation true false false init0 (opT 5 1 1 "a") = none := rfl

/-- Claim C8 (amended): an operation whose payload variant the applier does
not recognize panics the actor when the operation is not stale
(`ModelSyncData::from_op(..).unwrap()`), aborting the whole batch — the
remaining operations are not processed; there is no per-operation
rejection. -/
theorem C8_unrecognized_payload_panics (st : ActorState) (op : CRDTOperation)
    (ops : List CRDTOperation)
    (h1 : ModelSyncData.from_op op.typ = none)
    (h2 : compare_message st.db op = false) :
    processBatch st (op :: ops) = none := by
  have hrecv : receive_crdt_operation false false false st op = none := by
    unfold receive_crdt_operation
    simp [h2, apply_op, h1]
  simp only [processBatch, hrecv]

/-- Claim C8 witness: the unrecognized-payload operation `opBad` aborts its
batch, the following well-formed operation never being processed. -/
theorem C8_witness : processBatch init0 [opBad, opT 5 1 1 "a"] = none :=
  C8_unrecognized_payload_panics init0 opBad [opT 5 1 1 "a"] (by decide) (by decide)

/-- Claim C8 counterexample: `opBad`'s payload is unrecognized and its batch
dies wholesale (result `none`, a panic) instead of rejecting `opBad` alone
and processing the rest — while the same trailing operations in a well-formed
batch process fine. -/
theorem C8_counterexample :
    ModelSyncData.from_op opBad.typ = none
    ∧ processBatch init0 [opBad, opT 5 1 1 "a"] = none
    ∧ (processBatch init0 [opT 5 1 1 "a"]).isSome = true := by
  refine ⟨?_, ?_, ?_⟩ <;> decide

/-- Claim C9: in the fetching state the machine emits exactly one
fetch-request whose payload is the current watermark-table snapshot, suspends
until a batch event arrives, and then enters the applying state holding
exactly that batch. -/
theorem C9_fetch_request_snapshot (a : ActorState) (e : MessagesEvent) :
    tick .RetrievingMessages a (some (.Messages e)) =
      .next (.Ingesting e) [Request.Messages a.timestamps] a := rfl

/-- The operating-system parser always succeeds, yielding one of the five
named variants or `Other` of the whole input. -/
theorem from_str_total (t : String) :
    ∃ o, OperatingSystem.from_str t = .ok o ∧
      (o = .Windows ∨ o = .Linux ∨ o = .MacOS ∨ o = .Ios ∨ o = .Android ∨
        o = .Other t) := by
  unfold OperatingSystem.from_str
  split
  · exact ⟨.Windows, rfl, by simp⟩
  · exact ⟨.Linux, rfl, by simp⟩
  · exact ⟨.MacOS, rfl, by simp⟩
  · exact ⟨.Ios, rfl, by simp⟩
  · exact ⟨.Android, rfl, by simp⟩
  · exact ⟨.Other t, rfl, by simp⟩

/-- Claim C10 (amended): encoding-then-decoding `PeerMetadata` is the
identity whenever `operating_system` is `none` or one of the five named
variants; for `some (Other s)` the encoding drops the first character of `s`,
so the round-trip fails exactly when `s` is nonempty (for `s = ""` nothing is
dropped and the round-trip holds, see the counterexample). -/
theorem C10_roundtrip :
    (∀ (name : String) (ver : Option String) (os : Option OperatingSystem),
      os ∈ ([none, some .Windows, some .Linux, some .MacOS, some .Ios,
        some .Android] : List (Option OperatingSystem)) →
      PeerMetadata.from_hashmap (PeerMetadata.to_hashmap
        { name := name, operating_system := os, version := ver }) =
        .ok { name := name, operating_system := os, version := ver })
    ∧ (∀ (name : String) (ver : Option String) (s : String), s ≠ "" →
      PeerMetadata.from_hashmap (PeerMetadata.to_hashmap
        { name := name, operating_system := some (.Other s), version := ver }) ≠
        .ok { name := name, operating_system := some (.Other s), version := ver }) := by
  constructor
  · intro name ver os hos
    simp only [List.mem_cons, List.not_mem_nil, or_false] at hos
    rcases hos with rfl | rfl | rfl | rfl | rfl | rfl <;> cases ver <;> rfl
  · intro name ver s hs
    have hne : s.data ≠ [] := by
      intro h0
      apply hs
      cases s
      simp_all
    obtain ⟨o, ho, hcases⟩ := from_str_total ⟨s.data.drop 1⟩
    cases ver with
    | none =>
      have hred : PeerMetadata.from_hashmap (PeerMetadata.to_hashmap
          { name := name, operating_system := some (.Other s), version := none }) =
          (match OperatingSystem.from_str ⟨s.data.drop 1⟩ with
           | .error _ => .error "Unable to parse OperationSystem!"
           | .ok o =>
             .ok { name := name, operating_system := some o, version := none }) := rfl
      intro heq
      rw [hred, ho] at heq
      simp only [Except.ok.injEq, PeerMetadata.mk.injEq, Option.some.injEq,
        and_true, true_and] at heq
      rcases hcases with rfl | rfl | rfl | rfl | rfl | rfl
      · cases heq
      · cases heq
      · cases heq
      · cases heq
      · cases heq
      · have hdata : s.data.drop 1 = s.data := by
          have := congrArg String.data (by injection heq : (⟨s.data.drop 1⟩ : String) = s)
          simpa using this
        rcases hd : s.data with _ | ⟨c, cs⟩
        · exact hne hd
        · rw [hd] at hdata
          simp only [List.drop_one, List.tail_cons] at hdata
          have hlen := congrArg List.length hdata
          simp at hlen
    | some v =>
      have hred : PeerMetadata.from_hashmap (PeerMetadata.to_hashmap
          { name := name, operating_system := some (.Other s), version := some v }) =
          (match OperatingSystem.from_str ⟨s.data.drop 1⟩ with
           | .error _ => .error "Unable to parse OperationSystem!"
           | .ok o =>
             .ok { name := name, operating_system := some o, version := some v }) := rfl
      intro heq
      rw [hred, ho] at heq
      simp only [Except.ok.injEq, PeerMetadata.mk.injEq, Option.some.injEq,
        and_true, true_and] at heq
      rcases hcases with rfl | rfl | rfl | rfl | rfl | rfl
      · cases heq
      · cases heq
      · cases heq
      · cases heq
      · cases heq
      · have hdata : s.data.drop 1 = s.data := by
          have := congrArg String.data (by injection heq : (⟨s.data.drop 1⟩ : String) = s)
          simpa using this
        rcases hd : s.data with _ | ⟨c, cs⟩
        · exact hne hd
        · rw [hd] at hdata
          simp only [List.drop_one, List.tail_cons] at hdata
          have hlen := congrArg List.length hdata
          simp at hlen

/-- Claim C10 witness: the round-trip identity at a concrete named variant. -/
theorem C10_witness :
    PeerMetadata.from_hashmap (PeerMetadata.to_hashmap
      { name := "n", operating_system := some OperatingSystem.Windows, version := none }) =
      .ok { name := "n", operating_system := some OperatingSystem.Windows, version := none } :=
  C10_roundtrip.1 "n" none (some .Windows) (by simp)

/-- Claim C10 counterexample: for `Some (Other "")` the round-trip does hold
(dropping the first character of the empty string is the identity), against
the claim that the round-trip fails for every `Some (Other s)`. -/
theorem C10_counterexample :
    PeerMetadata.from_hashmap (PeerMetadata.to_hashmap
      { name := "n", operating_system := some (OperatingSystem.Other ""), version := none }) =
      .ok { name := "n", operating_system := some (OperatingSystem.Other ""), version := none } :=
  rfl

end Spacedrive
